import Mathlib

/-!
# Verification of the cross-dialect database portability layer

Shallow embedding of `src/prefect/orion/utilities/database.py`:
the JSON predicate compilers (`json_contains`, `json_has_any_key`,
`json_has_all_keys`) as evaluated by the postgresql and sqlite backends,
the value adapters (`Timestamp`, `UUID`, `Pydantic`), and the engine /
session-factory registries (`get_engine`, `get_session_factory`,
`setup_sqlite`).

Python/SQL values are modelled as plain Lean data; backend semantics
(postgresql JSONB operators, sqlite `json_each`, SQL comparison rules,
Python `uuid.UUID` text parsing) are modelled from their documented
behaviour since they are external to the repository.
-/

set_option maxHeartbeats 1000000

/-- A JSON document (the payload of a `StructuredValue` / `JSON` column).
Numbers are modelled as integers, which covers every value the claims
mention; object member order is kept (Python dicts and sqlite JSON text
preserve insertion order). -/
inductive Json where
  | null : Json
  | bool (b : Bool) : Json
  | num (n : Int) : Json
  | str (s : String) : Json
  | arr (xs : List Json) : Json
  | obj (kvs : List (String × Json)) : Json

/-- JSON string escaping used by `json.dumps` (only the characters that can
occur in the documents of interest: backslash and double quote). -/
def escapeChar (c : Char) : List Char :=
  if c = '\\' then ['\\', '\\']
  else if c = '"' then ['\\', '"']
  else [c]

/-- `json.dumps` of a Python string (with quotes). -/
def dumpStr (s : String) : String :=
  String.mk ('"' :: (s.toList.map escapeChar).flatten ++ ['"'])

mutual

/-- `json.dumps(v, separators=(",", ":"))`: compact JSON text.  This is both
the normalisation applied by `json_contains_sqlite` to non-scalar values and
the form in which sqlite's `json_each` reports non-scalar member values
(sqlite re-serialises JSON sub-values with all whitespace removed). -/
def dumpJson : Json → String
  | Json.null => "null"
  | Json.bool true => "true"
  | Json.bool false => "false"
  | Json.num n => toString n
  | Json.str s => dumpStr s
  | Json.arr xs => "[" ++ dumpArr xs ++ "]"
  | Json.obj kvs => "\x7b" ++ dumpObj kvs ++ "\x7d"

/-- Comma-separated compact dump of array elements. -/
def dumpArr : List Json → String
  | [] => ""
  | [x] => dumpJson x
  | x :: y :: rest => dumpJson x ++ "," ++ dumpArr (y :: rest)

/-- Comma-separated compact dump of object members. -/
def dumpObj : List (String × Json) → String
  | [] => ""
  | [(k, v)] => dumpStr k ++ ":" ++ dumpJson v
  | (k, v) :: p :: rest => dumpStr k ++ ":" ++ dumpJson v ++ "," ++ dumpObj (p :: rest)

end

/-- Last-wins member lookup: postgresql JSONB normalises objects by keeping
the last occurrence of a duplicated key. -/
def jsonbLookup (kvs : List (String × Json)) (k : String) : Option Json :=
  (kvs.reverse.find? (fun kv => kv.1 == k)).map (fun kv => kv.2)

/-- Is the JSON value a scalar (not array, not object)? -/
def jsonIsScalar : Json → Bool
  | Json.arr _ => false
  | Json.obj _ => false
  | _ => true

mutual

/-- Structural postgresql JSONB containment (`@>`) below top level:
objects contain objects key-by-key (partial), arrays contain arrays
element-by-element (each RHS element contained in some LHS element),
scalars contain equal scalars; mismatched kinds never contain. -/
def jsonbContainsAux : Json → Json → Bool
  | Json.obj a, Json.obj b => jsonbObjAll a b
  | Json.arr a, Json.arr b => jsonbArrAll a b
  | Json.null, Json.null => true
  | Json.bool x, Json.bool y => x == y
  | Json.num x, Json.num y => x == y
  | Json.str x, Json.str y => x == y
  | _, _ => false

/-- Every member of the RHS object is contained in the LHS object. -/
def jsonbObjAll (a : List (String × Json)) : List (String × Json) → Bool
  | [] => true
  | (k, v) :: rest =>
    (match jsonbLookup a k with
     | some w => jsonbContainsAux w v
     | none => false) && jsonbObjAll a rest

/-- Every element of the RHS list is contained in some element of `a`. -/
def jsonbArrAll (a : List Json) : List Json → Bool
  | [] => true
  | e :: rest => jsonbArrAny a e && jsonbArrAll a rest

/-- Some element of `a` contains `e`. -/
def jsonbArrAny (a : List Json) (e : Json) : Bool :=
  match a with
  | [] => false
  | x :: rest => jsonbContainsAux x e || jsonbArrAny rest e

end

/-- Top-level postgresql JSONB containment `x @> y`, including the
documented special exception that a top-level array contains a primitive
value that equals one of its elements. -/
def jsonbContains (x y : Json) : Bool :=
  if jsonIsScalar y then
    match x with
    | Json.arr a => jsonbArrAny a y
    | _ => jsonbContainsAux x y
  else jsonbContainsAux x y

/-- postgresql `jsonb ? key` (also the per-element test of `?|` / `?&`):
the string exists as a top-level object key, as a top-level string array
element, or equals a top-level string scalar. -/
def jsonbExistsKey (doc : Json) (k : String) : Bool :=
  match doc with
  | Json.obj kvs => kvs.any (fun kv => kv.1 == k)
  | Json.arr xs =>
    xs.any (fun e =>
      match e with
      | Json.str s => s == k
      | _ => false)
  | Json.str s => s == k
  | _ => false

/-- Evaluation of the predicate compiled by `json_contains_postgresql`:
`type_coerce(json_expr, JSONB).contains(values)` renders `doc @> values`
with the whole Python list bound as one JSONB array. -/
def json_contains_postgresql_eval (doc : Json) (values : List Json) : Bool :=
  jsonbContains doc (Json.arr values)

/-- Evaluation of the predicate compiled by `json_has_any_key_postgresql`:
`doc ?| array[keys]` (the empty-array cast only fixes the SQL array's
element type and does not change the boolean result). -/
def json_has_any_key_postgresql_eval (doc : Json) (keys : List String) : Bool :=
  keys.any (fun k => jsonbExistsKey doc k)

/-- Evaluation of the predicate compiled by `json_has_all_keys_postgresql`:
`doc ?& array[keys]`. -/
def json_has_all_keys_postgresql_eval (doc : Json) (keys : List String) : Bool :=
  keys.all (fun k => jsonbExistsKey doc k)

/-- A value as seen by the sqlite SQL engine in the `value` column of
`json_each` or as a bound parameter: NULL, an integer, or text.
(Real numbers do not occur in the modelled documents.) -/
inductive SqlVal where
  | vnull : SqlVal
  | vint (n : Int) : SqlVal
  | vtext (s : String) : SqlVal
deriving DecidableEq, Repr

/-- The SQL value sqlite's `json_each` reports for one JSON sub-value:
JSON null becomes SQL NULL, booleans become the integers 1/0, integers stay
integers, strings become text, and arrays/objects are re-serialised as
compact JSON text. -/
def sqliteJsonVal : Json → SqlVal
  | Json.null => SqlVal.vnull
  | Json.bool b => SqlVal.vint (if b then 1 else 0)
  | Json.num n => SqlVal.vint n
  | Json.str s => SqlVal.vtext s
  | Json.arr xs => SqlVal.vtext (dumpJson (Json.arr xs))
  | Json.obj kvs => SqlVal.vtext (dumpJson (Json.obj kvs))

/-- The rows produced by `json_each(doc)`: the member values of a top-level
object (values, not keys!), the elements of a top-level array, or the single
scalar itself. -/
def jsonEachVals : Json → List SqlVal
  | Json.arr xs => xs.map sqliteJsonVal
  | Json.obj kvs => kvs.map (fun kv => sqliteJsonVal kv.2)
  | j => [sqliteJsonVal j]

/-- The SQL bind value produced by `json_contains_sqlite` for one element of
`element.values`: dicts and lists are first dumped with
`json.dumps(v, separators=(",", ":"))`; scalars are bound natively
(Python bool becomes integer 1/0, None becomes NULL). -/
def bindParamVal : Json → SqlVal
  | Json.obj kvs => SqlVal.vtext (dumpJson (Json.obj kvs))
  | Json.arr xs => SqlVal.vtext (dumpJson (Json.arr xs))
  | Json.null => SqlVal.vnull
  | Json.bool b => SqlVal.vint (if b then 1 else 0)
  | Json.num n => SqlVal.vint n
  | Json.str s => SqlVal.vtext s

/-- sqlite `=` comparison between two stored values: NULL compares to
nothing (the WHERE clause drops it), integers and text never compare equal
across types, same-type values compare by equality. -/
def sqlEq : SqlVal → SqlVal → Bool
  | SqlVal.vint a, SqlVal.vint b => a == b
  | SqlVal.vtext a, SqlVal.vtext b => a == b
  | _, _ => false

/-- The comparison SQLAlchemy renders for `literal_column == v`: comparing
against Python `None` renders `IS NULL`; anything else renders SQL `=`. -/
def sqlaEqComparison (e v : SqlVal) : Bool :=
  match v with
  | SqlVal.vnull => (match e with | SqlVal.vnull => true | _ => false)
  | _ => sqlEq e v

/-- Evaluation of the predicate compiled by `json_contains_sqlite`: for each
provided value (dict/list values dumped compactly first), an EXISTS over
`json_each(doc)` matching that value, all conjoined; the empty list compiles
to `and_(True)`, i.e. true. -/
def json_contains_sqlite_eval (doc : Json) (values : List Json) : Bool :=
  (values.map bindParamVal).all
    (fun v => (jsonEachVals doc).any (fun e => sqlaEqComparison e v))

/-- Evaluation of the predicate compiled by `json_has_any_key_sqlite`:
EXISTS over `json_each(doc)` with `json_each.value IN keys`; SQLAlchemy
renders an empty IN list as an always-false expression. -/
def json_has_any_key_sqlite_eval (doc : Json) (keys : List String) : Bool :=
  (jsonEachVals doc).any (fun e => keys.any (fun k => sqlEq e (SqlVal.vtext k)))

/-- Evaluation of the predicate compiled by `json_has_all_keys_sqlite`:
a conjunction of single-key `json_has_any_key` predicates, `and_(True)`
(i.e. true) for the empty key list. -/
def json_has_all_keys_sqlite_eval (doc : Json) (keys : List String) : Bool :=
  keys.all (fun k => json_has_any_key_sqlite_eval doc [k])

/-- A JSON array whose elements are the given strings (the shape the
predicates are used with: tag lists). -/
def strArr (xs : List String) : Json :=
  Json.arr (xs.map Json.str)

-- helper lemmas ------------------------------------------------------------

theorem any_any_comm (xs : List α) (ys : List β) (p : α → β → Bool) :
    (xs.any fun a => ys.any fun b => p a b)
      = (ys.any fun b => xs.any fun a => p a b) := by
  rw [Bool.eq_iff_iff]
  simp only [List.any_eq_true]
  tauto

theorem jsonbArrAny_str (xs : List String) (t : String) :
    jsonbArrAny (xs.map Json.str) (Json.str t) = xs.any (fun s => s == t) := by
  induction xs with
  | nil => simp [jsonbArrAny]
  | cons s rest ih => simp [jsonbArrAny, jsonbContainsAux, ih]

theorem jsonbArrAll_str (xs vals : List String) :
    jsonbArrAll (xs.map Json.str) (vals.map Json.str)
      = vals.all (fun t => xs.any (fun s => s == t)) := by
  induction vals with
  | nil => simp [jsonbArrAll]
  | cons t rest ih => simp [jsonbArrAll, jsonbArrAny_str, ih]

theorem json_has_any_key_dialect_equiv_strings (xs keys : List String) :
    json_has_any_key_postgresql_eval (strArr xs) keys
      = json_has_any_key_sqlite_eval (strArr xs) keys := by
  rw [Bool.eq_iff_iff]
  simp only [json_has_any_key_postgresql_eval, json_has_any_key_sqlite_eval, strArr,
    jsonEachVals, jsonbExistsKey, sqliteJsonVal, sqlEq, List.map_map, List.any_eq_true,
    List.mem_map, exists_exists_and_eq_and, Function.comp_apply, beq_iff_eq]
  tauto

theorem json_has_all_keys_dialect_equiv_strings (xs keys : List String) :
    json_has_all_keys_postgresql_eval (strArr xs) keys
      = json_has_all_keys_sqlite_eval (strArr xs) keys := by
  rw [Bool.eq_iff_iff]
  simp only [json_has_all_keys_postgresql_eval, json_has_all_keys_sqlite_eval,
    json_has_any_key_sqlite_eval, strArr, jsonEachVals, jsonbExistsKey, sqliteJsonVal,
    sqlEq, List.map_map, List.all_eq_true, List.any_eq_true, List.mem_map,
    exists_exists_and_eq_and, Function.comp_apply, List.mem_singleton, beq_iff_eq,
    List.any_cons, List.any_nil, Bool.or_false]

theorem json_contains_dialect_equiv_strings (xs vals : List String) :
    json_contains_postgresql_eval (strArr xs) (vals.map Json.str)
      = json_contains_sqlite_eval (strArr xs) (vals.map Json.str) := by
  rw [Bool.eq_iff_iff]
  simp only [json_contains_postgresql_eval, jsonbContains, jsonIsScalar, jsonbContainsAux,
    jsonbArrAll_str, json_contains_sqlite_eval, strArr, jsonEachVals, bindParamVal,
    sqliteJsonVal, sqlaEqComparison, sqlEq, List.map_map, List.all_eq_true,
    List.any_eq_true, List.mem_map, exists_exists_and_eq_and, Function.comp_apply,
    forall_exists_index, and_imp, forall_apply_eq_imp_iff, forall_apply_eq_imp_iff₂,
    beq_iff_eq, Bool.false_eq_true, if_false]

/-- C1 counterexample: predicate evaluation is NOT dialect-invariant for all
documents.  On the document obj("a" maps to 1) with predicate
HasAnyKey(["a"]), the postgresql compilation (`doc ?| array of keys`) tests
top-level object KEYS and yields true, while the sqlite compilation tests
the `json_each` VALUE column and yields false. -/
theorem json_has_any_key_dialect_divergence_obj :
    json_has_any_key_postgresql_eval (Json.obj [("a", Json.num 1)]) ["a"] = true ∧
    json_has_any_key_sqlite_eval (Json.obj [("a", Json.num 1)]) ["a"] = false :=
  ⟨rfl, rfl⟩

/-- C1 (amended): dialect-invariance of predicate evaluation holds on the
predicates' intended domain: for documents that are JSON arrays of strings
(tag lists), HasAnyKey and HasAllKeys agree across dialects for every string
key-set, and Contains agrees for every list of string values. -/
theorem predicate_eval_dialect_equiv_on_string_arrays (xs keys vals : List String) :
    json_contains_postgresql_eval (strArr xs) (vals.map Json.str)
        = json_contains_sqlite_eval (strArr xs) (vals.map Json.str) ∧
    json_has_any_key_postgresql_eval (strArr xs) keys
        = json_has_any_key_sqlite_eval (strArr xs) keys ∧
    json_has_all_keys_postgresql_eval (strArr xs) keys
        = json_has_all_keys_sqlite_eval (strArr xs) keys :=
  ⟨json_contains_dialect_equiv_strings xs vals,
   json_has_any_key_dialect_equiv_strings xs keys,
   json_has_all_keys_dialect_equiv_strings xs keys⟩

/-- C2 counterexample: `has_any_key(expr, [])` does NOT evaluate to true: on
the document obj("a" maps to 1) it evaluates to false on both dialects
(postgresql `?|` with an empty array is false; SQLAlchemy renders an empty
IN clause as an always-false expression). -/
theorem json_has_any_key_empty_false_at_doc :
    json_has_any_key_postgresql_eval (Json.obj [("a", Json.num 1)]) [] = false ∧
    json_has_any_key_sqlite_eval (Json.obj [("a", Json.num 1)]) [] = false :=
  ⟨rfl, rfl⟩

/-- C2 (amended): with an empty key-set, `has_all_keys` evaluates to a
vacuously-true predicate on both dialects, but `has_any_key` evaluates to an
always-FALSE predicate on both dialects (never invalid SQL in either case). -/
theorem empty_key_set_predicate_eval (doc : Json) :
    json_has_all_keys_postgresql_eval doc [] = true ∧
    json_has_all_keys_sqlite_eval doc [] = true ∧
    json_has_any_key_postgresql_eval doc [] = false ∧
    json_has_any_key_sqlite_eval doc [] = false := by
  refine ⟨rfl, rfl, rfl, ?_⟩
  simp [json_has_any_key_sqlite_eval]

/-- C3 counterexample: evaluating Contains(expr, [obj("a" maps to 1)])
against the document obj("a" maps to 1, "b" maps to [1,2]) does NOT yield
true on the postgresql dialect: the compiled predicate is
`doc @> (JSON array [obj("a":1)])` and an object never JSONB-contains an
array. -/
theorem json_contains_scenario_not_true :
    ¬ (json_contains_postgresql_eval
        (Json.obj [("a", Json.num 1), ("b", Json.arr [Json.num 1, Json.num 2])])
        [Json.obj [("a", Json.num 1)]] = true) := by
  simp [json_contains_postgresql_eval, jsonbContains, jsonIsScalar, jsonbContainsAux]

/-- C3 (amended): on the document obj("a" maps to 1, "b" maps to [1,2]) the
compiled predicate Contains(expr, [obj("a" maps to 1)]) yields FALSE on both
dialects (so the two dialects still agree on this input): postgresql because
an object cannot contain an array, sqlite because no `json_each` value row
(1 and the text "[1,2]") equals the dumped text of obj("a":1). -/
theorem json_contains_scenario_false_both_dialects :
    json_contains_postgresql_eval
        (Json.obj [("a", Json.num 1), ("b", Json.arr [Json.num 1, Json.num 2])])
        [Json.obj [("a", Json.num 1)]] = false ∧
    json_contains_sqlite_eval
        (Json.obj [("a", Json.num 1), ("b", Json.arr [Json.num 1, Json.num 2])])
        [Json.obj [("a", Json.num 1)]] = false := by
  constructor
  · simp [json_contains_postgresql_eval, jsonbContains, jsonIsScalar, jsonbContainsAux]
  · simp only [json_contains_sqlite_eval, bindParamVal, jsonEachVals, sqliteJsonVal,
      sqlaEqComparison, sqlEq, dumpJson, dumpObj, dumpArr, dumpStr, escapeChar]
    decide

-- ### Value adapters -------------------------------------------------------

/-- A Python datetime as pendulum models it: a wall-clock reading (in
arbitrary units) plus an optional UTC offset (None = naive). The absolute
instant of an aware value is wall - offset. -/
structure PyDateTime where
  wall : Int
  tzinfo : Option Int
deriving DecidableEq, Repr

/-- `pendulum.instance(value).in_timezone("UTC")`: an aware value is
converted to UTC keeping the absolute instant; a naive value is taken as
already UTC. -/
def pendulumInUTC (dt : PyDateTime) : PyDateTime :=
  match dt.tzinfo with
  | some off => ⟨dt.wall - off, some 0⟩
  | none => ⟨dt.wall, some 0⟩

namespace Timestamp

/-- `Timestamp.process_bind_param`: None is stored as NULL; a naive
datetime raises ValueError; on sqlite the value is converted to UTC;
on any other dialect it is passed through unchanged. -/
def process_bind_param (value : Option PyDateTime) (dialectName : String) :
    Except String (Option PyDateTime) :=
  match value with
  | none => Except.ok none
  | some v =>
    if v.tzinfo = none then Except.error "Timestamps must have a timezone."
    else if dialectName = "sqlite" then Except.ok (some (pendulumInUTC v))
    else Except.ok (some v)

/-- `Timestamp.process_result_value`: a non-NULL stored value is recovered
as `pendulum.instance(value).in_timezone("utc")`; NULL falls through the
`if` and Python returns None. -/
def process_result_value (value : Option PyDateTime) (dialectName : String) :
    Option PyDateTime :=
  match value with
  | none => none
  | some v => some (pendulumInUTC v)

end Timestamp

-- ### Python uuid.UUID text form ------------------------------------------

/-- Lowercase hex digit character for a nibble below 16. -/
def hexChar (d : Nat) : Char :=
  if d < 10 then Char.ofNat (48 + d) else Char.ofNat (87 + d)

/-- The value of a hex digit character, accepting upper and lower case
exactly as Python's `int(x, 16)` does for the 32 digits of a UUID. -/
def hexCharVal (c : Char) : Option Nat :=
  if 48 ≤ c.toNat ∧ c.toNat ≤ 57 then some (c.toNat - 48)
  else if 97 ≤ c.toNat ∧ c.toNat ≤ 102 then some (c.toNat - 87)
  else if 65 ≤ c.toNat ∧ c.toNat ≤ 70 then some (c.toNat - 55)
  else none

/-- Fixed-width big-endian hex digits: the k low-order nibbles of v. -/
def toHexDigits : Nat → Nat → List Nat
  | 0, _ => []
  | k+1, v => toHexDigits k (v / 16) ++ [v % 16]

/-- The characters of `str(uuid.UUID(int=v))`: 32 lowercase hex digits in
the hyphenated 8-4-4-4-12 layout. -/
def uuidChars (v : Nat) : List Char :=
  let d := (toHexDigits 32 v).map hexChar
  d.take 8 ++ ['-'] ++ (d.drop 8).take 4 ++ ['-'] ++ (d.drop 12).take 4
    ++ ['-'] ++ (d.drop 16).take 4 ++ ['-'] ++ d.drop 20

/-- The canonical hyphenated textual form of an Identifier. -/
def uuidStr (v : Nat) : String :=
  String.mk (uuidChars v)

/-- Python `str.replace(pat, "")`: delete every non-overlapping occurrence
of pat, scanning left to right.  The fuel argument (instantiated with the
list length) only drives structural recursion. -/
def replaceSubFuel (pat : List Char) : Nat → List Char → List Char
  | _, [] => []
  | 0, l => l
  | fuel+1, c :: rest =>
    if pat.isPrefixOf (c :: rest) then
      replaceSubFuel pat fuel ((c :: rest).drop pat.length)
    else c :: replaceSubFuel pat fuel rest

/-- Is the character one of the braces stripped by `uuid.UUID`? -/
def isUuidBrace (c : Char) : Bool :=
  c == '\x7b' || c == '\x7d'

/-- Python `str.strip` of the two brace characters. -/
def stripBraces (l : List Char) : List Char :=
  ((l.dropWhile isUuidBrace).reverse.dropWhile isUuidBrace).reverse

/-- `int(chars, 16)`: succeeds when every character is a hex digit. -/
def hexCharsVal (l : List Char) : Option Nat :=
  l.foldl (fun acc c => acc.bind (fun a => (hexCharVal c).map (fun d => a * 16 + d)))
    (some 0)

/-- Python `uuid.UUID(hex=s)`: remove `urn:` and `uuid:` markers, strip
surrounding braces, delete hyphens, then require exactly 32 hex digits. -/
def pyUuidParse (s : String) : Option Nat :=
  let l1 := replaceSubFuel "urn:".toList s.toList.length s.toList
  let l2 := replaceSubFuel "uuid:".toList l1.length l1
  let l3 := (stripBraces l2).filter (fun c => c != '-')
  if l3.length = 32 then hexCharsVal l3 else none

-- ### UUID adapter ---------------------------------------------------------

/-- A Python value flowing through the UUID TypeDecorator: None, text, or a
`uuid.UUID` instance (represented by its canonical 128-bit integer). -/
inductive PyUuidVal where
  | vnone : PyUuidVal
  | vstr (s : String) : PyUuidVal
  | vuuid (n : Nat) : PyUuidVal
deriving DecidableEq, Repr

/-- Python `str()` of such a value. -/
def pyUuidValStr : PyUuidVal → String
  | PyUuidVal.vuuid n => uuidStr n
  | PyUuidVal.vstr s => s
  | PyUuidVal.vnone => "None"

/-- Python `isinstance(value, uuid.UUID)`. -/
def isPyUuidInstance : PyUuidVal → Bool
  | PyUuidVal.vuuid _ => true
  | _ => false

namespace UUIDType

/-- `UUID.process_bind_param`: None passes through; on postgresql the value
is rendered with `str()` (no validation); otherwise a `uuid.UUID` instance
is rendered with `str()` and any other value is parsed with `uuid.UUID()`
(raising ValueError on malformed text) and rendered canonically. -/
def process_bind_param (value : PyUuidVal) (dialectName : String) :
    Except String PyUuidVal :=
  if value = PyUuidVal.vnone then Except.ok PyUuidVal.vnone
  else if dialectName = "postgresql" then Except.ok (PyUuidVal.vstr (pyUuidValStr value))
  else if isPyUuidInstance value then Except.ok (PyUuidVal.vstr (pyUuidValStr value))
  else
    match value with
    | PyUuidVal.vstr s =>
      (match pyUuidParse s with
       | some n => Except.ok (PyUuidVal.vstr (uuidStr n))
       | none => Except.error "badly formed hexadecimal UUID string")
    | PyUuidVal.vuuid n => Except.error "TypeError"
    | PyUuidVal.vnone => Except.error "TypeError"

/-- `UUID.process_result_value`: None passes through; a value that is not
already a `uuid.UUID` is parsed with `uuid.UUID()`; a `uuid.UUID` instance
is returned unchanged. -/
def process_result_value (value : PyUuidVal) (dialectName : String) :
    Except String PyUuidVal :=
  match value with
  | PyUuidVal.vnone => Except.ok PyUuidVal.vnone
  | PyUuidVal.vuuid n => Except.ok (PyUuidVal.vuuid n)
  | PyUuidVal.vstr s =>
    (match pyUuidParse s with
     | some n => Except.ok (PyUuidVal.vuuid n)
     | none => Except.error "badly formed hexadecimal UUID string")

end UUIDType

namespace Pydantic

/-- `Pydantic.process_result_value`: a non-NULL stored document is
re-hydrated with `pydantic.parse_obj_as` (modelled as an abstract fallible
parse function); NULL falls through the `if` and Python returns None. -/
def process_result_value (parse : Json → Except String Json)
    (value : Option Json) (dialectName : String) : Except String (Option Json) :=
  match value with
  | none => Except.ok none
  | some v => (parse v).map some

end Pydantic

theorem toHexDigits_length (k : Nat) : ∀ v, (toHexDigits k v).length = k := by
  induction k with
  | zero => intro v; rfl
  | succ k ih => intro v; simp [toHexDigits, ih]

theorem toHexDigits_lt (k : Nat) : ∀ v, ∀ d ∈ toHexDigits k v, d < 16 := by
  induction k with
  | zero => intro v d hd; simp [toHexDigits] at hd
  | succ k ih =>
    intro v d hd
    simp only [toHexDigits, List.mem_append, List.mem_singleton] at hd
    rcases hd with hd | hd
    · exact ih _ d hd
    · subst hd; exact Nat.mod_lt _ (by norm_num)

theorem hexCharVal_hexChar : ∀ d, d < 16 → hexCharVal (hexChar d) = some d := by decide

theorem hexChar_plain : ∀ d, d < 16 →
    hexChar d ≠ '-' ∧ hexChar d ≠ ':' ∧ isUuidBrace (hexChar d) = false := by decide

theorem foldl_toHexDigits (k : Nat) : ∀ v a : Nat,
    (toHexDigits k v).foldl (fun x d => x * 16 + d) a = a * 16 ^ k + v % 16 ^ k := by
  induction k with
  | zero => intro v a; simp [toHexDigits, Nat.mod_one]
  | succ k ih =>
    intro v a
    rw [toHexDigits, List.foldl_append, ih]
    simp only [List.foldl_cons, List.foldl_nil]
    have hlow : v % 16 ^ (k + 1) = (v / 16 % 16 ^ k) * 16 + v % 16 := by
      rw [Nat.pow_succ, Nat.mul_comm (16 ^ k) 16, Nat.mod_mul]
      ring
    rw [hlow]
    ring

theorem hexCharsVal_go (ds : List Nat) : ∀ a : Nat, (∀ d ∈ ds, d < 16) →
    (ds.map hexChar).foldl
        (fun acc c => acc.bind (fun x => (hexCharVal c).map (fun d => x * 16 + d)))
        (some a)
      = some (ds.foldl (fun x d => x * 16 + d) a) := by
  induction ds with
  | nil => intro a _; rfl
  | cons d rest ih =>
    intro a h
    simp only [List.map_cons, List.foldl_cons, Option.some_bind]
    rw [hexCharVal_hexChar d (h d (by simp))]
    simp only [Option.map_some']
    exact ih (a * 16 + d) (fun x hx => h x (by simp [hx]))

theorem mem_of_isPrefixOf {l1 l2 : List Char} (h : l1.isPrefixOf l2 = true) :
    ∀ c ∈ l1, c ∈ l2 := by
  induction l1 generalizing l2 with
  | nil => intro c hc; simp at hc
  | cons x rest ih =>
    cases l2 with
    | nil => simp [List.isPrefixOf] at h
    | cons y rest2 =>
      simp only [List.isPrefixOf, Bool.and_eq_true, beq_iff_eq] at h
      intro c hc
      rcases List.mem_cons.mp hc with hc | hc
      · subst hc; rw [h.1]; exact List.mem_cons_self _ _
      · exact List.mem_cons_of_mem _ (ih h.2 c hc)

theorem replaceSubFuel_id {pat : List Char} {c : Char} (hc : c ∈ pat) :
    ∀ (f : Nat) (l : List Char), c ∉ l → replaceSubFuel pat f l = l := by
  intro f
  induction f with
  | zero => intro l _; cases l <;> rfl
  | succ f ih =>
    intro l hl
    cases l with
    | nil => rfl
    | cons x rest =>
      rw [replaceSubFuel]
      rw [if_neg, ih rest (fun hr => hl (List.mem_cons_of_mem _ hr))]
      intro hpre
      exact hl (mem_of_isPrefixOf hpre c hc)

theorem dropWhile_id {p : Char → Bool} {l : List Char}
    (h : ∀ c ∈ l, p c = false) : l.dropWhile p = l := by
  cases l with
  | nil => rfl
  | cons x rest => simp [List.dropWhile_cons, h x (by simp)]

theorem stripBraces_id {l : List Char}
    (h : ∀ c ∈ l, isUuidBrace c = false) : stripBraces l = l := by
  unfold stripBraces
  rw [dropWhile_id h, dropWhile_id (fun c hc => h c (List.mem_reverse.mp hc)),
    List.reverse_reverse]


theorem splice_take_drop (d : List Char) :
    d.take 8 ++ ((d.drop 8).take 4 ++ ((d.drop 12).take 4
      ++ ((d.drop 16).take 4 ++ d.drop 20))) = d := by
  have h20 : d.drop 20 = (d.drop 16).drop 4 := by
    rw [List.drop_drop]
  have h16 : d.drop 16 = (d.drop 12).drop 4 := by
    rw [List.drop_drop]
  have h12 : d.drop 12 = (d.drop 8).drop 4 := by
    rw [List.drop_drop]
  rw [h20, List.take_append_drop, h16, List.take_append_drop, h12,
    List.take_append_drop, List.take_append_drop]


theorem uuidChars_mem (v : Nat) :
    ∀ c ∈ uuidChars v, c = '-' ∨ ∃ d, d < 16 ∧ c = hexChar d := by
  intro c hc
  unfold uuidChars at hc
  simp only [List.mem_append, List.mem_singleton] at hc
  have base : ∀ x ∈ (toHexDigits 32 v).map hexChar,
      x = '-' ∨ ∃ d, d < 16 ∧ x = hexChar d := by
    intro x hx
    rcases List.mem_map.mp hx with ⟨d, hd, hxd⟩
    exact Or.inr ⟨d, toHexDigits_lt 32 v d hd, hxd.symm⟩
  rcases hc with ((((((((h | h) | h) | h) | h) | h) | h) | h) | h)
  · exact base c (List.take_subset _ _ h)
  · exact Or.inl h
  · exact base c (List.drop_subset _ _ (List.take_subset _ _ h))
  · exact Or.inl h
  · exact base c (List.drop_subset _ _ (List.take_subset _ _ h))
  · exact Or.inl h
  · exact base c (List.drop_subset _ _ (List.take_subset _ _ h))
  · exact Or.inl h
  · exact base c (List.drop_subset _ _ h)

theorem filter_uuidChars (v : Nat) :
    (uuidChars v).filter (fun c => c != '-') = (toHexDigits 32 v).map hexChar := by
  have keep : ∀ (l : List Char), (∀ x ∈ l, x ∈ (toHexDigits 32 v).map hexChar) →
      l.filter (fun c => c != '-') = l := by
    intro l hl
    rw [List.filter_eq_self]
    intro a ha
    rcases List.mem_map.mp (hl a ha) with ⟨d, hd, had⟩
    have := (hexChar_plain d (toHexDigits_lt 32 v d hd)).1
    simp [← had, bne_iff_ne]
    exact fun he => this he
  unfold uuidChars
  simp only [List.filter_append]
  rw [keep _ (fun x hx => List.take_subset _ _ hx),
    keep _ (fun x hx => List.drop_subset _ _ (List.take_subset _ _ hx)),
    keep _ (fun x hx => List.drop_subset _ _ (List.take_subset _ _ hx)),
    keep _ (fun x hx => List.drop_subset _ _ (List.take_subset _ _ hx)),
    keep _ (fun x hx => List.drop_subset _ _ hx)]
  have hyph : (['-'] : List Char).filter (fun c => c != '-') = [] := rfl
  rw [hyph]
  simp only [List.append_nil, List.nil_append, List.append_assoc]
  exact splice_take_drop _

theorem pyUuidParse_uuidStr (n : Nat) (hn : n < 2 ^ 128) :
    pyUuidParse (uuidStr n) = some n := by
  have hchars := uuidChars_mem n
  have hnocolon : ':' ∉ uuidChars n := by
    intro h
    rcases hchars ':' h with h1 | ⟨d, hd, h2⟩
    · exact absurd h1 (by decide)
    · exact (hexChar_plain d hd).2.1 h2.symm
  have hnobrace : ∀ c ∈ uuidChars n, isUuidBrace c = false := by
    intro c hc
    rcases hchars c hc with h1 | ⟨d, hd, h2⟩
    · subst h1; rfl
    · subst h2; exact (hexChar_plain d hd).2.2
  have htl : (uuidStr n).toList = uuidChars n := rfl
  unfold pyUuidParse
  rw [htl]
  dsimp only
  rw [replaceSubFuel_id (show ':' ∈ "urn:".toList by decide) _ _ hnocolon]
  rw [replaceSubFuel_id (show ':' ∈ "uuid:".toList by decide) _ _ hnocolon]
  rw [stripBraces_id hnobrace]
  rw [filter_uuidChars]
  have hlen : ((toHexDigits 32 n).map hexChar).length = 32 := by
    simp [toHexDigits_length]
  rw [if_pos hlen]
  unfold hexCharsVal
  rw [hexCharsVal_go _ 0 (toHexDigits_lt 32 n)]
  rw [foldl_toHexDigits]
  have h32 : (16:Nat) ^ 32 = 2 ^ 128 := by norm_num
  rw [Nat.zero_mul, Nat.zero_add, h32, Nat.mod_eq_of_lt hn]

/-- C4: for every dialect, Timestamp encode maps None to NULL; it fails
with the validation error exactly when the instant carries no tzinfo; an
aware instant is accepted, converted to UTC (same absolute instant, offset
zero) on the sqlite dialect and passed through unchanged on postgresql. -/
theorem timestamp_bind_param_spec (d : String) (dt : PyDateTime) :
    Timestamp.process_bind_param none d = Except.ok none ∧
    ((∃ e, Timestamp.process_bind_param (some dt) d = Except.error e) ↔ dt.tzinfo = none) ∧
    (∀ off, dt.tzinfo = some off →
      Timestamp.process_bind_param (some dt) "sqlite"
          = Except.ok (some ⟨dt.wall - off, some 0⟩) ∧
      Timestamp.process_bind_param (some dt) "postgresql" = Except.ok (some dt)) := by
  refine ⟨rfl, ?_, ?_⟩
  · by_cases h : dt.tzinfo = none
    · simp [Timestamp.process_bind_param, h]
    · simp only [Timestamp.process_bind_param, h, if_false, iff_false]
      rintro ⟨e, he⟩
      split_ifs at he
  · intro off hoff
    constructor
    · simp [Timestamp.process_bind_param, hoff, pendulumInUTC]
    · simp [Timestamp.process_bind_param, hoff]

theorem timestamp_bind_param_spec_witness :
    Timestamp.process_bind_param none "sqlite" = Except.ok none ∧
    ((∃ e, Timestamp.process_bind_param (some ⟨5, some 3600⟩) "sqlite" = Except.error e) ↔
      (⟨5, some 3600⟩ : PyDateTime).tzinfo = none) ∧
    (∀ off, (⟨5, some 3600⟩ : PyDateTime).tzinfo = some off →
      Timestamp.process_bind_param (some ⟨5, some 3600⟩) "sqlite"
          = Except.ok (some ⟨(5:Int) - off, some 0⟩) ∧
      Timestamp.process_bind_param (some ⟨5, some 3600⟩) "postgresql"
          = Except.ok (some ⟨5, some 3600⟩)) :=
  timestamp_bind_param_spec "sqlite" ⟨5, some 3600⟩

/-- C5: for every canonical 128-bit Identifier value and every dialect,
encode renders the hyphenated text, decode parses it back to the identical
value (and hands back an already-native UUID unchanged), and the hyphenated
textual form is byte-identical before encode and after decode. -/
theorem uuid_roundtrip (n : Nat) (hn : n < 2 ^ 128) (d : String) :
    UUIDType.process_bind_param (PyUuidVal.vuuid n) d
        = Except.ok (PyUuidVal.vstr (uuidStr n)) ∧
    UUIDType.process_result_value (PyUuidVal.vstr (uuidStr n)) d
        = Except.ok (PyUuidVal.vuuid n) ∧
    UUIDType.process_result_value (PyUuidVal.vuuid n) d
        = Except.ok (PyUuidVal.vuuid n) ∧
    pyUuidValStr (PyUuidVal.vuuid n) = uuidStr n := by
  refine ⟨?_, ?_, rfl, rfl⟩
  · by_cases hd : d = "postgresql" <;>
      simp [UUIDType.process_bind_param, hd, pyUuidValStr, isPyUuidInstance]
  · simp [UUIDType.process_result_value, pyUuidParse_uuidStr n hn]

theorem uuid_roundtrip_witness :
    1 < 2 ^ 128 ∧
    (UUIDType.process_bind_param (PyUuidVal.vuuid 1) "sqlite"
        = Except.ok (PyUuidVal.vstr (uuidStr 1)) ∧
     UUIDType.process_result_value (PyUuidVal.vstr (uuidStr 1)) "sqlite"
        = Except.ok (PyUuidVal.vuuid 1) ∧
     UUIDType.process_result_value (PyUuidVal.vuuid 1) "sqlite"
        = Except.ok (PyUuidVal.vuuid 1) ∧
     pyUuidValStr (PyUuidVal.vuuid 1) = uuidStr 1) :=
  ⟨by norm_num, uuid_roundtrip 1 (by norm_num) "sqlite"⟩

/-- C6 counterexample: on the postgresql dialect, malformed Identifier
text is NOT rejected at encode: "not-a-uuid" does not parse as a UUID, yet
`process_bind_param` silently passes it through as `str(value)`. -/
theorem uuid_bind_param_malformed_passthrough_postgresql :
    pyUuidParse "not-a-uuid" = none ∧
    UUIDType.process_bind_param (PyUuidVal.vstr "not-a-uuid") "postgresql"
      = Except.ok (PyUuidVal.vstr "not-a-uuid") := by
  constructor
  · rfl
  · rfl

/-- C6 (amended): only the non-postgresql (sqlite) branch of Identifier
encode attempts a canonical parse, failing with the format error exactly on
invalid text; the postgresql branch passes text through unvalidated. -/
theorem uuid_bind_param_validation (s : String) :
    (UUIDType.process_bind_param (PyUuidVal.vstr s) "sqlite"
        = Except.error "badly formed hexadecimal UUID string" ↔ pyUuidParse s = none) ∧
    UUIDType.process_bind_param (PyUuidVal.vstr s) "postgresql"
      = Except.ok (PyUuidVal.vstr s) := by
  constructor
  · cases h : pyUuidParse s <;>
      simp [UUIDType.process_bind_param, h, isPyUuidInstance]
  · rfl

/-- C10: for every value adapter (Timestamp, UUID, Pydantic) and every
dialect, decoding a stored NULL returns None and never raises. -/
theorem result_value_none_passthrough (d : String) (parse : Json → Except String Json) :
    Timestamp.process_result_value none d = none ∧
    UUIDType.process_result_value PyUuidVal.vnone d = Except.ok PyUuidVal.vnone ∧
    Pydantic.process_result_value parse none d = Except.ok none :=
  ⟨rfl, rfl, rfl⟩

-- ### Connection and session registries ------------------------------------

/-- Substring containment on character lists (Python `pat in s`). -/
def listContainsSub (pat : List Char) : List Char → Bool
  | [] => pat.isEmpty
  | c :: rest => pat.isPrefixOf (c :: rest) || listContainsSub pat rest

/-- Python `s.startswith(pat)`. -/
def pyStartsWith (s pat : String) : Bool :=
  pat.toList.isPrefixOf s.toList

/-- Python `pat in s`. -/
def pyContains (s pat : String) : Bool :=
  listContainsSub pat.toList s.toList

/-- The characters following the first occurrence of `pat`, if any. -/
def afterSub (pat : List Char) : List Char → Option (List Char)
  | [] => if pat.isEmpty then some [] else none
  | c :: rest =>
    if pat.isPrefixOf (c :: rest) then some ((c :: rest).drop pat.length)
    else afterSub pat rest

/-- SQLAlchemy's `engine.url.database` for the URLs this layer handles: the
part after "://" and after the (possibly empty) authority segment ending at
the next "/" ("sqlite:///file.db" gives "file.db", "sqlite:///:memory:"
gives ":memory:"). -/
def urlDatabase (url : String) : String :=
  match afterSub "://".toList url.toList with
  | none => ""
  | some rest =>
    match rest.dropWhile (fun c => c ≠ '/') with
    | [] => String.mk rest
    | _ :: db => String.mk db

/-- `engine.dialect.name`, determined by the URL scheme. -/
def urlDialectName (url : String) : String :=
  if pyStartsWith url "sqlite" then "sqlite"
  else if pyStartsWith url "postgresql" then "postgresql"
  else "other"

/-- An async engine as `create_async_engine` returns it: identified by a
creation counter (standing for Python object identity), remembering its URL,
echo flag and whether the SingletonThreadPool policy was applied. -/
structure PyEngine where
  id : Nat
  url : String
  echo : Bool
  singletonPool : Bool
deriving DecidableEq, Repr

/-- The cache key of `ENGINES`: (event-loop identity, connection URL, echo). -/
abbrev ConnKey := Nat × String × Bool

/-- The module-level mutable state: the `ENGINES` and `SESSION_FACTORIES`
caches (insertion-ordered association lists, like Python dicts), the next
fresh object identity, and the log of `create_db` schema-bootstrap
invocations (by engine identity, in order). -/
structure DBState where
  engines : List (ConnKey × PyEngine)
  session_factories : List ((Nat × Nat) × Nat)
  nextId : Nat
  bootstrapped : List Nat
deriving DecidableEq, Repr

/-- `get_engine(connection_url, echo)` running on a given event loop, with
the file system as an `os.path.exists` oracle.  Returns the cached engine
for (loop, url, echo) when present; otherwise creates one — applying the
long-lived SingletonThreadPool policy iff the url starts with "sqlite" AND
contains ":memory:" — runs `create_db` when the engine is sqlite and the
target database is in-memory, memory-mode or a nonexistent file, then
caches and returns the new engine. -/
def get_engine (fileExists : String → Bool) (st : DBState) (loop : Nat)
    (connection_url : String) (echo : Bool) : PyEngine × DBState :=
  match st.engines.lookup (loop, connection_url, echo) with
  | some e => (e, st)
  | none =>
    let pool := pyStartsWith connection_url "sqlite"
      && pyContains connection_url ":memory:"
    let e : PyEngine := ⟨st.nextId, connection_url, echo, pool⟩
    let db := urlDatabase connection_url
    let fresh := (urlDialectName connection_url == "sqlite")
      && (pyContains db ":memory:" || pyContains db "mode=memory"
          || !(fileExists db))
    let st1 :=
      if fresh then { st with bootstrapped := st.bootstrapped ++ [e.id] }
      else st
    (e, { st1 with
            engines := st1.engines ++ [((loop, connection_url, echo), e)],
            nextId := st.nextId + 1 })

/-- `get_session_factory(bind)` on a given event loop for an already
resolved bind (engine identity): returns the cached factory for
(loop, bind) or creates, caches and returns a fresh one. -/
def get_session_factory (st : DBState) (loop : Nat) (bindId : Nat) :
    Nat × DBState :=
  match st.session_factories.lookup (loop, bindId) with
  | some f => (f, st)
  | none =>
    (st.nextId,
     { st with
         session_factories :=
           st.session_factories ++ [((loop, bindId), st.nextId)],
         nextId := st.nextId + 1 })

/-- One step of the `once=True` `engine_connect` listener `setup_sqlite`:
given whether the listener has already fired in this process, returns the
new fired flag and whether `PRAGMA foreign_keys=ON` was executed on this
connection. -/
def setup_sqlite_step (fired : Bool) (backendName : String) : Bool × Bool :=
  if fired then (true, false)
  else (true, backendName == "sqlite")

/-- A whole process history of `engine_connect` events (the backend names of
the connecting engines, in order), returning for each connection whether
foreign-key enforcement was enabled on it. -/
def runEngineConnects : Bool → List String → List Bool
  | _, [] => []
  | fired, b :: rest =>
    (setup_sqlite_step fired b).2
      :: runEngineConnects (setup_sqlite_step fired b).1 rest

theorem lookup_append_some {α β : Type} [BEq α] {l1 : List (α × β)}
    (l2 : List (α × β)) {k : α} {v : β} (h : l1.lookup k = some v) :
    (l1 ++ l2).lookup k = some v := by
  induction l1 with
  | nil => simp [List.lookup] at h
  | cons p rest ih =>
    rw [List.cons_append]
    rcases p with ⟨a, b⟩
    rw [List.lookup_cons] at h ⊢
    cases hk : k == a with
    | true => rw [hk] at h; simpa [hk] using h
    | false => rw [hk] at h; simpa [hk] using ih h

theorem lookup_append_none {α β : Type} [BEq α] {l1 : List (α × β)}
    (l2 : List (α × β)) {k : α} (h : l1.lookup k = none) :
    (l1 ++ l2).lookup k = l2.lookup k := by
  induction l1 with
  | nil => simp
  | cons p rest ih =>
    rw [List.cons_append]
    rcases p with ⟨a, b⟩
    rw [List.lookup_cons] at h ⊢
    cases hk : k == a with
    | true => rw [hk] at h; simp at h
    | false => rw [hk] at h; simpa [hk] using ih h

theorem get_engine_eq (fileExists : String → Bool) (st : DBState) (loop : Nat)
    (url : String) (echo : Bool) :
    get_engine fileExists st loop url echo
      = match st.engines.lookup (loop, url, echo) with
        | some e => (e, st)
        | none =>
          (⟨st.nextId, url, echo,
              pyStartsWith url "sqlite" && pyContains url ":memory:"⟩,
           { engines := st.engines ++ [((loop, url, echo),
               ⟨st.nextId, url, echo,
                 pyStartsWith url "sqlite" && pyContains url ":memory:"⟩)],
             session_factories := st.session_factories,
             nextId := st.nextId + 1,
             bootstrapped := st.bootstrapped ++
               (if (urlDialectName url == "sqlite")
                   && (pyContains (urlDatabase url) ":memory:"
                       || pyContains (urlDatabase url) "mode=memory"
                       || !(fileExists (urlDatabase url)))
                then [st.nextId] else []) }) := by
  unfold get_engine
  cases h : st.engines.lookup (loop, url, echo) with
  | some e => rfl
  | none =>
    dsimp only
    by_cases hfr : ((urlDialectName url == "sqlite")
        && (pyContains (urlDatabase url) ":memory:"
            || pyContains (urlDatabase url) "mode=memory"
            || !(fileExists (urlDatabase url)))) = true
    · simp [hfr]
    · simp [hfr]

theorem get_session_factory_eq (st : DBState) (loop bindId : Nat) :
    get_session_factory st loop bindId
      = match st.session_factories.lookup (loop, bindId) with
        | some f => (f, st)
        | none =>
          (st.nextId,
           { st with
               session_factories :=
                 st.session_factories ++ [((loop, bindId), st.nextId)],
               nextId := st.nextId + 1 }) := by
  unfold get_session_factory
  cases h : st.session_factories.lookup (loop, bindId) <;> rfl

/-- C7: `get_engine` is idempotent per (event loop, connection URL, echo)
key: a second call with the same key returns the identical cached engine
and leaves the whole state untouched (in particular no second schema
bootstrap); after any call the key maps to the returned engine; the ENGINES
cache is append-only (existing entries are never evicted or overwritten);
a first call for an uncached "sqlite:///:memory:" key runs the schema
bootstrap exactly once; and `get_session_factory` enjoys the same
idempotence and append-only properties for SESSION_FACTORIES. -/
theorem get_engine_cache_spec (fileExists : String → Bool) (st : DBState)
    (loop : Nat) (url : String) (echo : Bool) (bindId : Nat) :
    (get_engine fileExists (get_engine fileExists st loop url echo).2 loop url echo).1
        = (get_engine fileExists st loop url echo).1 ∧
    (get_engine fileExists (get_engine fileExists st loop url echo).2 loop url echo).2
        = (get_engine fileExists st loop url echo).2 ∧
    ((get_engine fileExists st loop url echo).2).engines.lookup (loop, url, echo)
        = some (get_engine fileExists st loop url echo).1 ∧
    (∀ k e, st.engines.lookup k = some e →
      ((get_engine fileExists st loop url echo).2).engines.lookup k = some e) ∧
    (st.engines.lookup (loop, "sqlite:///:memory:", echo) = none →
      ((get_engine fileExists st loop "sqlite:///:memory:" echo).2).bootstrapped
        = st.bootstrapped ++ [st.nextId]) ∧
    (get_session_factory (get_session_factory st loop bindId).2 loop bindId).1
        = (get_session_factory st loop bindId).1 ∧
    (get_session_factory (get_session_factory st loop bindId).2 loop bindId).2
        = (get_session_factory st loop bindId).2 ∧
    (∀ k f, st.session_factories.lookup k = some f →
      ((get_session_factory st loop bindId).2).session_factories.lookup k = some f) := by
  have hafter :
      ((get_engine fileExists st loop url echo).2).engines.lookup (loop, url, echo)
        = some (get_engine fileExists st loop url echo).1 := by
    rw [get_engine_eq]
    cases h : st.engines.lookup (loop, url, echo) with
    | some e => simp [h]
    | none =>
      simp only [h]
      rw [lookup_append_none _ h]
      simp [List.lookup]
  have hfafter :
      ((get_session_factory st loop bindId).2).session_factories.lookup (loop, bindId)
        = some (get_session_factory st loop bindId).1 := by
    rw [get_session_factory_eq]
    cases h : st.session_factories.lookup (loop, bindId) with
    | some f => simp [h]
    | none =>
      simp only [h]
      rw [lookup_append_none _ h]
      simp [List.lookup]
  refine ⟨?_, ?_, hafter, ?_, ?_, ?_, ?_, ?_⟩
  · rw [get_engine_eq fileExists ((get_engine fileExists st loop url echo).2) loop url echo, hafter]
  · rw [get_engine_eq fileExists ((get_engine fileExists st loop url echo).2) loop url echo, hafter]
  · intro k e hke
    rw [get_engine_eq]
    cases h : st.engines.lookup (loop, url, echo) with
    | some e2 => simpa [h] using hke
    | none => simpa [h] using lookup_append_some _ hke
  · intro hnone
    rw [get_engine_eq, hnone]
    have : ((urlDialectName "sqlite:///:memory:" == "sqlite")
        && (pyContains (urlDatabase "sqlite:///:memory:") ":memory:"
            || pyContains (urlDatabase "sqlite:///:memory:") "mode=memory"
            || !(fileExists (urlDatabase "sqlite:///:memory:")))) = true := by
      have h1 : urlDatabase "sqlite:///:memory:" = ":memory:" := rfl
      have h2 : urlDialectName "sqlite:///:memory:" = "sqlite" := rfl
      have h3 : pyContains ":memory:" ":memory:" = true := rfl
      rw [h1, h2, h3]
      simp
    rw [this]
    simp
  · rw [get_session_factory_eq ((get_session_factory st loop bindId).2) loop bindId, hfafter]
  · rw [get_session_factory_eq ((get_session_factory st loop bindId).2) loop bindId, hfafter]
  · intro k f hkf
    rw [get_session_factory_eq]
    cases h : st.session_factories.lookup (loop, bindId) with
    | some f2 => simpa [h] using hkf
    | none => simpa [h] using lookup_append_some _ hkf

/-- C8 (code bug): the `once=True` `engine_connect` listener is consumed
by the first connection of ANY engine, process-wide.  If that first
connection is from a postgresql engine, a later sqlite connection never
gets `PRAGMA foreign_keys=ON`; and even when the first connection is
sqlite, only that single connection has the (per-connection) pragma
executed — later sqlite connections do not. -/
theorem setup_sqlite_foreign_keys_missed :
    runEngineConnects false ["postgresql", "sqlite"] = [false, false] ∧
    runEngineConnects false ["sqlite", "sqlite"] = [true, false] :=
  ⟨rfl, rfl⟩

/-- C9 counterexample: creating an engine for a not-yet-existing sqlite
file database ("sqlite:///newfile.db" with the file absent) runs the schema
bootstrap (so it IS one of the fresh targets the claim covers) but does NOT
configure the SingletonThreadPool keep-alive pool policy. -/
theorem get_engine_newfile_no_singleton_pool :
    ((get_engine (fun _ => false) ⟨[], [], 0, []⟩ 0 "sqlite:///newfile.db" false).1).singletonPool
        = false ∧
    ((get_engine (fun _ => false) ⟨[], [], 0, []⟩ 0 "sqlite:///newfile.db" false).2).bootstrapped
        = [0] :=
  ⟨rfl, rfl⟩

/-- C9 (amended): when `get_engine` creates a new engine (the key is not
cached), the keep-alive pool policy is applied exactly when the connection
URL starts with "sqlite" and contains ":memory:"; other targets, including
not-yet-existing file databases, get no such pool policy. -/
theorem get_engine_pool_policy (fileExists : String → Bool) (st : DBState)
    (loop : Nat) (url : String) (echo : Bool)
    (h : st.engines.lookup (loop, url, echo) = none) :
    ((get_engine fileExists st loop url echo).1).singletonPool
      = (pyStartsWith url "sqlite" && pyContains url ":memory:") := by
  rw [get_engine_eq, h]

theorem get_engine_pool_policy_witness :
    (⟨[], [], 0, []⟩ : DBState).engines.lookup ((0 : Nat), "sqlite:///:memory:", false) = none ∧
    ((get_engine (fun _ => false) ⟨[], [], 0, []⟩ 0 "sqlite:///:memory:" false).1).singletonPool
      = (pyStartsWith "sqlite:///:memory:" "sqlite"
          && pyContains "sqlite:///:memory:" ":memory:") :=
  ⟨rfl, get_engine_pool_policy (fun _ => false) ⟨[], [], 0, []⟩ 0 "sqlite:///:memory:" false rfl⟩
